import Mathlib

/-!
# Verification of the grpcp file-transfer server

Shallow embedding of `server.go` (package `grpcp`): the Upload and Download
stream handlers, the Shutdown control operation and the TLS listener builder
`newListener`. Bytes are modelled as `Nat`, Go `int64` sizes as `Int`, the
inbound/outbound gRPC streams as explicit event lists, and the single file a
session touches as an explicit piece of state threaded through the handler.
-/

namespace Grpcp

/-- `StreamBufferSize = 1024 * 1024` (server.go line 23): the read buffer
capacity used by the download handler and the documented bound on chunk size. -/
def StreamBufferSize : Nat := 1024 * 1024

/-- Protobuf message `FileUploadRequest {filename, content, size}`. -/
structure FileUploadRequest where
  filename : String
  content : List Nat
  size : Int
deriving Repr, DecidableEq

/-- Protobuf message `FileUploadResponse {message}`. -/
structure FileUploadResponse where
  message : String
deriving Repr, DecidableEq

/-- `newUploadResponse` (server.go lines 31-33). -/
def newUploadResponse (msg : String) : FileUploadResponse :=
  ⟨msg⟩

/-- How the inbound stream of an upload session terminates after its messages:
`stream.Recv` yields `io.EOF`, or a transport-level receive error. -/
inductive StreamTerm where
  | eof
  | recvError (msg : String)
deriving Repr, DecidableEq

/-- The error exits of `server.upload` (server.go lines 43-72), one constructor
per `fmt.Errorf` site, carrying the data interpolated into the message. -/
inductive UploadError where
  | sizeMismatch (expected actual : Int)
  | recvFailed (msg : String)
  | openFailed
deriving Repr, DecidableEq

/-- The state an upload session threads through its receive loop: the
destination file on disk (`none` = absent), the open handle (offset of the
next write), the `sync.Once` flag, and the running/declared byte counters.
`openFails` injects a failing `os.OpenFile`; `opens` counts executions of the
open call (ghost instrumentation for the once-only property). -/
structure UploadState where
  disk : Option (List Nat)
  openFails : Bool
  handleOpen : Bool
  offset : Nat
  opens : Nat
  onceDone : Bool
  totalBytes : Int
  expectedSize : Int
deriving Repr, DecidableEq

/-- Overwrite `data` into `base` starting at byte offset `off`, extending the
file if the write runs past its end: the semantics of `File.Write` on a handle
opened `O_WRONLY|O_CREATE` (no `O_APPEND`, no `O_TRUNC`) whose offset is `off`. -/
def writeAt (base : List Nat) (off : Nat) (data : List Nat) : List Nat :=
  base.take off ++ data ++ base.drop (off + data.length)

/-- `server.upload` (server.go lines 43-72): receive messages until EOF or
error; on the first message open the destination `O_WRONLY|O_CREATE` and
capture the declared size (`once.Do`); write each chunk at the current offset;
at EOF compare the running total with the declared size. -/
def upload : List FileUploadRequest → StreamTerm → UploadState →
    Except UploadError FileUploadResponse × UploadState
  | [], .eof, st =>
      if st.totalBytes ≠ st.expectedSize then
        (.error (.sizeMismatch st.expectedSize st.totalBytes), st)
      else
        (.ok (newUploadResponse "Upload received successfully"), st)
  | [], .recvError m, st => (.error (.recvFailed m), st)
  | req :: rest, term, st =>
      let st1 :=
        if st.onceDone then st
        else if st.openFails then
          { st with onceDone := true, opens := st.opens + 1,
                    expectedSize := req.size }
        else
          { st with onceDone := true, opens := st.opens + 1,
                    expectedSize := req.size, handleOpen := true, offset := 0,
                    disk := some (st.disk.getD []) }
      if st1.handleOpen = false then (.error .openFailed, st1)
      else
        let st2 :=
          { st1 with
            disk := some (writeAt (st1.disk.getD []) st1.offset req.content),
            offset := st1.offset + req.content.length,
            totalBytes := st1.totalBytes + (req.content.length : Int) }
        upload rest term st2

/-- The state of a session that has not yet received its first message:
destination file content `d` on disk, `os.OpenFile` outcome injection `b`. -/
def freshUpload (d : Option (List Nat)) (b : Bool) : UploadState :=
  ⟨d, b, false, 0, 0, false, 0, 0⟩

/-- The success acknowledgement sent by `stream.SendAndClose` (server.go line 54). -/
def uploadOkResponse : FileUploadResponse :=
  newUploadResponse "Upload received successfully"

/-- The concatenation of all chunk payloads of an upload session, in order. -/
def uploadedBytes (msgs : List FileUploadRequest) : List Nat :=
  (msgs.map (fun m => m.content)).flatten

theorem uploadedBytes_nil : uploadedBytes [] = [] := rfl

theorem uploadedBytes_cons (req : FileUploadRequest) (rest : List FileUploadRequest) :
    uploadedBytes (req :: rest) = req.content ++ uploadedBytes rest := by
  simp [uploadedBytes]

theorem writeAt_zero (base data : List Nat) :
    writeAt base 0 data = data ++ base.drop data.length := by
  simp [writeAt]

theorem writeAt_zero_append (base w c : List Nat) :
    writeAt (writeAt base 0 w) w.length c = writeAt base 0 (w ++ c) := by
  rw [writeAt_zero base w, writeAt_zero base (w ++ c)]
  simp only [writeAt]
  rw [List.take_left, List.drop_append, List.drop_drop, List.length_append,
    List.append_assoc]

/-- Evaluating the first iteration of the receive loop on a fresh session whose
`os.OpenFile` succeeds: the `sync.Once` body runs, the destination is opened
(created empty when absent), the declared size is captured, and the first chunk
is written at offset 0. -/
theorem upload_first_step (req : FileUploadRequest) (rest : List FileUploadRequest)
    (term : StreamTerm) (d : Option (List Nat)) :
    upload (req :: rest) term (freshUpload d false) =
      upload rest term
        ⟨some (writeAt (d.getD []) 0 req.content), false, true,
          req.content.length, 1, true, (req.content.length : Int), req.size⟩ := by
  simp [upload, freshUpload]

/-- Once the `sync.Once` body has run and the handle is open, the remaining
iterations never re-open the file nor touch the captured declared size. -/
theorem upload_once_preserved (msgs : List FileUploadRequest) :
    ∀ (term : StreamTerm) (st : UploadState),
    st.onceDone = true → st.handleOpen = true →
    (upload msgs term st).2.opens = st.opens ∧
    (upload msgs term st).2.expectedSize = st.expectedSize ∧
    (upload msgs term st).2.onceDone = true ∧
    (upload msgs term st).2.handleOpen = true := by
  induction msgs with
  | nil =>
      intro term st hod hho
      cases term with
      | eof =>
          simp only [upload]
          split <;> exact ⟨rfl, rfl, hod, hho⟩
      | recvError m => exact ⟨rfl, rfl, hod, hho⟩
  | cons req rest ih =>
      rintro term ⟨dsk, ofl, ho, off, ops, od, tb, es⟩ hod hho
      obtain rfl : od = true := hod
      obtain rfl : ho = true := hho
      have hstep : upload (req :: rest) term ⟨dsk, ofl, true, off, ops, true, tb, es⟩
          = upload rest term
            ⟨some (writeAt (dsk.getD []) off req.content), ofl, true,
              off + req.content.length, ops, true,
              tb + (req.content.length : Int), es⟩ := rfl
      rw [hstep]
      exact ih term _ rfl rfl

/-- Characterisation of the receive loop from an open-handle state to a normal
end-of-stream: the running total accumulates every chunk length, the remaining
chunks are written sequentially at the current offset, and the verdict is the
final comparison of the running total with the declared size. -/
theorem upload_open_run (msgs : List FileUploadRequest) :
    ∀ (st : UploadState) (w : List Nat) (base : List Nat),
    st.onceDone = true → st.handleOpen = true →
    st.disk = some (writeAt base 0 w) → st.offset = w.length →
    (upload msgs .eof st).2.totalBytes
        = st.totalBytes + ((uploadedBytes msgs).length : Int) ∧
    (upload msgs .eof st).2.disk = some (writeAt base 0 (w ++ uploadedBytes msgs)) ∧
    (upload msgs .eof st).1 =
      (if st.totalBytes + ((uploadedBytes msgs).length : Int) ≠ st.expectedSize then
        .error (.sizeMismatch st.expectedSize
          (st.totalBytes + ((uploadedBytes msgs).length : Int)))
      else .ok uploadOkResponse) := by
  induction msgs with
  | nil =>
      intro st w base hod hho hdisk hoff
      simp only [uploadedBytes_nil, List.length_nil, Nat.cast_zero, add_zero,
        List.append_nil, upload]
      refine ⟨?_, ?_, ?_⟩
      · split <;> rfl
      · split <;> simpa using hdisk
      · split <;> simp_all [uploadOkResponse]
  | cons req rest ih =>
      rintro ⟨dsk, ofl, ho, off, ops, od, tb, es⟩ w base hod hho hdisk hoff
      obtain rfl : od = true := hod
      obtain rfl : ho = true := hho
      obtain rfl : dsk = some (writeAt base 0 w) := hdisk
      obtain rfl : off = w.length := hoff
      have hstep : upload (req :: rest) .eof
          ⟨some (writeAt base 0 w), ofl, true, w.length, ops, true, tb, es⟩
        = upload rest .eof
          ⟨some (writeAt base 0 (w ++ req.content)), ofl, true,
            (w ++ req.content).length, ops, true,
            tb + (req.content.length : Int), es⟩ := by
        show upload rest .eof
          ⟨some (writeAt (writeAt base 0 w) w.length req.content), ofl, true,
            w.length + req.content.length, ops, true,
            tb + (req.content.length : Int), es⟩ = _
        rw [writeAt_zero_append, List.length_append]
      rw [hstep]
      obtain ⟨h1, h2, h3⟩ := ih
        ⟨some (writeAt base 0 (w ++ req.content)), ofl, true,
          (w ++ req.content).length, ops, true,
          tb + (req.content.length : Int), es⟩
        (w ++ req.content) base rfl rfl rfl rfl
      have harith : tb + (req.content.length : Int) + ((uploadedBytes rest).length : Int)
          = tb + ((uploadedBytes (req :: rest)).length : Int) := by
        rw [uploadedBytes_cons, List.length_append]
        push_cast
        ring
      refine ⟨?_, ?_, ?_⟩
      · rw [h1]
        exact harith
      · rw [h2, List.append_assoc, ← uploadedBytes_cons]
      · rw [h3, harith]

/-! ## Download handler -/

/-- Protobuf message `FileDownloadRequest {filename}`. -/
structure FileDownloadRequest where
  filename : String
deriving Repr, DecidableEq

/-- Protobuf message `FileDownloadResponse {message, filename, content, size}`.
`message` defaults to the proto3 zero value `""`: `server.download` never sets it. -/
structure FileDownloadResponse where
  message : String
  filename : String
  content : List Nat
  size : Int
deriving Repr, DecidableEq

/-- How the sequence of successful `f.Read` calls of a download session ends:
`io.EOF`, or a mid-file read error. -/
inductive ReadTerm where
  | eof
  | readError (msg : String)
deriving Repr, DecidableEq

/-- The error exits of `server.download` (server.go lines 82-116), one
constructor per `fmt.Errorf` site. -/
inductive DownloadError where
  | openFailed (filename : String)
  | statFailed
  | sizeMismatch (expected actual : Int)
  | readFailed (msg : String)
  | sendFailed
deriving Repr, DecidableEq

/-- What the filesystem offers a download session: whether `f.Stat` fails, the
size it reports at open time, and the sequence of chunks the successive
`f.Read` calls return before the terminating event. Listing the reads
explicitly lets the file change between the stat and the reads, the race the
final accounting check exists to catch. -/
structure DlFile where
  statFails : Bool
  statSize : Int
  reads : List (List Nat)
  rterm : ReadTerm
deriving Repr

/-- Outcome of a download session: the handler's return value, the messages
passed to `stream.Send` in order, the final running byte total, whether the
file was ever opened, and whether its handle is still open when the handler
returns (`defer f.Close()` runs on return). -/
structure DlOutcome where
  res : Except DownloadError Unit
  sent : List FileDownloadResponse
  totalBytes : Int
  opened : Bool
  handleOpen : Bool
deriving Repr

/-- The read/send loop of `server.download` (server.go lines 96-115): read a
chunk, send it with the filename and the stat-time size, accumulate; at EOF
compare the running total with the stat-time size. `sendFailAt` injects a
failing `stream.Send` at the given zero-based send index. -/
def downloadLoop (fn : String) (expectedBytes : Int) (sendFailAt : Option Nat) :
    List (List Nat) → ReadTerm → Int → Nat → List FileDownloadResponse →
    Except DownloadError Unit × List FileDownloadResponse × Int
  | [], .eof, total, _, acc =>
      if total ≠ expectedBytes then
        (.error (.sizeMismatch expectedBytes total), acc, total)
      else
        (.ok (), acc, total)
  | [], .readError m, total, _, acc => (.error (.readFailed m), acc, total)
  | c :: cs, rterm, total, idx, acc =>
      if sendFailAt = some idx then (.error .sendFailed, acc, total)
      else
        downloadLoop fn expectedBytes sendFailAt cs rterm
          (total + (c.length : Int)) (idx + 1)
          (acc ++ [⟨"", fn, c, expectedBytes⟩])

/-- `server.download` (server.go lines 82-116): open the requested file
(`FileOpenError` when absent), stat it for the authoritative size, run the
read/send loop, and close the handle on return (`defer f.Close()`, line 88) on
every exit path reached after the open succeeded. -/
def download (req : FileDownloadRequest) (file : Option DlFile)
    (sendFailAt : Option Nat) : DlOutcome :=
  match file with
  | none => ⟨.error (.openFailed req.filename), [], 0, false, false⟩
  | some fl =>
      if fl.statFails then ⟨.error .statFailed, [], 0, true, false⟩
      else
        let r := downloadLoop req.filename fl.statSize sendFailAt fl.reads fl.rterm 0 0 []
        ⟨r.1, r.2.1, r.2.2, true, false⟩

/-- The total number of bytes the successive reads of a download deliver. -/
def totalRead (cs : List (List Nat)) : Int :=
  ((cs.map (fun c => c.length)).sum : Nat)

theorem totalRead_nil : totalRead [] = 0 := rfl

theorem totalRead_cons (c : List Nat) (cs : List (List Nat)) :
    totalRead (c :: cs) = (c.length : Int) + totalRead cs := by
  simp [totalRead]

/-- With a healthy transport, the loop appends to the sent-message accumulator
one message per chunk read, each carrying the filename, the chunk bytes and the
stat-time size. -/
theorem downloadLoop_sent (fn : String) (exp : Int) (cs : List (List Nat)) :
    ∀ (rterm : ReadTerm) (total : Int) (idx : Nat) (acc : List FileDownloadResponse),
    (downloadLoop fn exp none cs rterm total idx acc).2.1
      = acc ++ cs.map (fun c => ⟨"", fn, c, exp⟩) := by
  induction cs with
  | nil =>
      intro rterm total idx acc
      cases rterm with
      | eof =>
          simp only [downloadLoop]
          split <;> simp
      | readError m => simp [downloadLoop]
  | cons c cs ih =>
      intro rterm total idx acc
      simp only [downloadLoop, reduceCtorEq, if_false]
      rw [ih]
      simp

/-- With a healthy transport and a normal EOF, the loop's verdict is the
comparison of the accumulated byte total against the stat-time size, and the
final total accumulates every chunk length. -/
theorem downloadLoop_verdict (fn : String) (exp : Int) (cs : List (List Nat)) :
    ∀ (total : Int) (idx : Nat) (acc : List FileDownloadResponse),
    (downloadLoop fn exp none cs .eof total idx acc).1
      = (if total + totalRead cs ≠ exp then
          .error (.sizeMismatch exp (total + totalRead cs))
        else .ok ()) ∧
    (downloadLoop fn exp none cs .eof total idx acc).2.2 = total + totalRead cs := by
  induction cs with
  | nil =>
      intro total idx acc
      simp only [downloadLoop, totalRead_nil, add_zero]
      constructor
      · split <;> rfl
      · split <;> rfl
  | cons c cs ih =>
      intro total idx acc
      simp only [downloadLoop, reduceCtorEq, if_false]
      obtain ⟨h1, h2⟩ := ih (total + (c.length : Int)) (idx + 1)
        (acc ++ [⟨"", fn, c, exp⟩])
      have harith : total + (c.length : Int) + totalRead cs
          = total + totalRead (c :: cs) := by
        rw [totalRead_cons]
        ring
      exact ⟨by rw [h1, harith], by rw [h2, harith]⟩

/-! ## Listener builder and certificate provisioner -/

/-- Server options consumed by `newListener` (fields `TLS`, `CertFile`,
`KeyFile` of `ServerOption`; empty string is the Go zero value for an
unconfigured path). -/
structure ServerOption where
  tls : Bool
  certFile : String
  keyFile : String
deriving Repr, DecidableEq

/-- What the filesystem holds at a configured certificate or key path: absent,
unreadable, readable but not a valid encoding, or a valid component of a key
pair (abstracted to an identifier). -/
inductive CertFileState where
  | missing
  | unreadable
  | invalid
  | valid (material : Nat)
deriving Repr, DecidableEq

/-- Outcome of the in-memory self-signed generation: a fresh key pair
(abstracted to an identifier) or a generation failure. -/
inductive GenOutcome where
  | ok (keyPair : Nat)
  | genError
deriving Repr, DecidableEq

/-- The certificate material a TLS configuration ends up holding. -/
inductive TLSCert where
  | loaded (cert key : Nat)
  | selfSigned (keyPair : Nat)
deriving Repr, DecidableEq

/-- A TLS server configuration as produced by the provisioner. -/
structure TLSConfig where
  cert : TLSCert
deriving Repr, DecidableEq

/-- The errors of listener construction, one per `fmt.Errorf` site of
`newListener` and the provisioner functions it calls. -/
inductive ListenerError where
  | bind
  | certificateLoad
  | certificateGeneration
deriving Repr, DecidableEq

/-- A ready-to-accept listener: plain TCP, or the TLS wrapping of it. -/
inductive Listener where
  | plain
  | tlsWrapped (cfg : TLSConfig)
deriving Repr, DecidableEq

/-- Modelled from the spec: `genTLS` (called by `newListener`, server.go line
148, body not under src/) loads and parses the key pair from disk, failing
with a certificate-load error if either file is missing, unreadable, or not a
valid key-pair encoding (spec §4.1). -/
def genTLS (disk : String → CertFileState) (certFile keyFile : String) :
    Except ListenerError TLSConfig :=
  match disk certFile, disk keyFile with
  | .valid c, .valid k => .ok ⟨.loaded c k⟩
  | _, _ => .error .certificateLoad

/-- Modelled from the spec: `genSelfSignedTLS` (called by `newListener`,
server.go line 142, body not under src/) generates a fresh asymmetric key pair
and a self-signed certificate entirely in memory, touching no file; its only
input is the cryptographic random source, abstracted as `rnd` (spec §4.1). -/
def genSelfSignedTLS (rnd : GenOutcome) : Except ListenerError TLSConfig :=
  match rnd with
  | .ok keyPair => .ok ⟨.selfSigned keyPair⟩
  | .genError => .error .certificateGeneration

/-- `newListener` (server.go lines 129-154): bind a plain TCP listener; without
TLS return it as-is; with TLS, generate a self-signed configuration when either
path is unconfigured, otherwise load the pair from disk; wrap on success and
abort construction on any failure. -/
def newListener (bindOk : Bool) (opt : ServerOption) (disk : String → CertFileState)
    (rnd : GenOutcome) : Except ListenerError Listener :=
  if bindOk = false then .error .bind
  else if opt.tls = false then .ok .plain
  else if opt.certFile = "" ∨ opt.keyFile = "" then
    match genSelfSignedTLS rnd with
    | .error e => .error e
    | .ok cfg => .ok (.tlsWrapped cfg)
  else
    match genTLS disk opt.certFile opt.keyFile with
    | .error e => .error e
    | .ok cfg => .ok (.tlsWrapped cfg)

/-! ## Derived characterisation of a whole upload session -/

/-- An upload session that starts fresh, opens its file successfully and runs
to a normal end-of-stream: the final total is the length of all uploaded
bytes, the destination holds those bytes written from offset 0 over its prior
content, the declared size is the first message's, and the verdict compares
the two. -/
theorem upload_fresh_run (req : FileUploadRequest) (rest : List FileUploadRequest)
    (d : Option (List Nat)) :
    (upload (req :: rest) .eof (freshUpload d false)).2.totalBytes
        = ((uploadedBytes (req :: rest)).length : Int)
    ∧ (upload (req :: rest) .eof (freshUpload d false)).2.disk
        = some (writeAt (d.getD []) 0 (uploadedBytes (req :: rest)))
    ∧ (upload (req :: rest) .eof (freshUpload d false)).2.expectedSize = req.size
    ∧ (upload (req :: rest) .eof (freshUpload d false)).1 =
        (if ((uploadedBytes (req :: rest)).length : Int) ≠ req.size then
          .error (.sizeMismatch req.size ((uploadedBytes (req :: rest)).length : Int))
        else .ok uploadOkResponse) := by
  rw [upload_first_step]
  obtain ⟨h1, h2, h3⟩ := upload_open_run rest
    ⟨some (writeAt (d.getD []) 0 req.content), false, true,
      req.content.length, 1, true, (req.content.length : Int), req.size⟩
    req.content (d.getD []) rfl rfl rfl rfl
  obtain ⟨-, hes, -, -⟩ := upload_once_preserved rest .eof
    ⟨some (writeAt (d.getD []) 0 req.content), false, true,
      req.content.length, 1, true, (req.content.length : Int), req.size⟩ rfl rfl
  have harith : (req.content.length : Int) + ((uploadedBytes rest).length : Int)
      = ((uploadedBytes (req :: rest)).length : Int) := by
    rw [uploadedBytes_cons, List.length_append]
    push_cast
    ring
  refine ⟨?_, ?_, ?_, ?_⟩
  · rw [h1]
    exact harith
  · rw [h2, ← uploadedBytes_cons]
  · exact hes
  · have h3' : (upload rest .eof
        ⟨some (writeAt (d.getD []) 0 req.content), false, true,
          req.content.length, 1, true, (req.content.length : Int), req.size⟩).1
        = (if (req.content.length : Int) + ((uploadedBytes rest).length : Int) ≠ req.size
          then
            .error (.sizeMismatch req.size
              ((req.content.length : Int) + ((uploadedBytes rest).length : Int)))
          else .ok uploadOkResponse) := h3
    rw [h3', harith]

/-! ## Claim theorems -/

/-- C1 (counterexample): uploading a single byte `0x78` with declared size 1
over a pre-existing two-byte destination `[0x61, 0x62]` succeeds, yet the
destination afterwards holds `[0x78, 0x62]` — two bytes, not the one uploaded
byte: `O_WRONLY|O_CREATE` without `O_TRUNC` keeps the prior tail, so the
claimed independence from pre-existing destination content fails. -/
theorem C1_prior_content_counterexample :
    (upload [⟨"f", [120], 1⟩] .eof (freshUpload (some [97, 98]) false)).1
        = .ok uploadOkResponse
    ∧ (upload [⟨"f", [120], 1⟩] .eof (freshUpload (some [97, 98]) false)).2.disk
        = some [120, 98] := ⟨rfl, rfl⟩

/-- C1 (amended): for every file of size `S` successfully uploaded in chunks of
any size at most the buffer capacity, the destination afterwards holds the
uploaded bytes written from offset 0, followed by any pre-existing content
beyond offset `S`; the running total equals both `S` and the declared size, and
the content is byte-for-byte the uploaded bytes with size exactly `S` whenever
the destination was absent or held at most `S` bytes before the upload. -/
theorem C1_upload_content (msgs : List FileUploadRequest) (d : Option (List Nat))
    (hne : msgs ≠ [])
    (hbuf : ∀ m ∈ msgs, m.content.length ≤ StreamBufferSize)
    (hok : (upload msgs .eof (freshUpload d false)).1 = .ok uploadOkResponse) :
    (upload msgs .eof (freshUpload d false)).2.disk
      = some (uploadedBytes msgs ++ (d.getD []).drop (uploadedBytes msgs).length)
    ∧ (upload msgs .eof (freshUpload d false)).2.totalBytes
        = ((uploadedBytes msgs).length : Int)
    ∧ (upload msgs .eof (freshUpload d false)).2.totalBytes
        = (upload msgs .eof (freshUpload d false)).2.expectedSize
    ∧ ((d.getD []).length ≤ (uploadedBytes msgs).length →
        (upload msgs .eof (freshUpload d false)).2.disk = some (uploadedBytes msgs)) := by
  obtain ⟨req, rest, rfl⟩ : ∃ a l, msgs = a :: l := by
    cases msgs with
    | nil => exact absurd rfl hne
    | cons a l => exact ⟨a, l, rfl⟩
  obtain ⟨h1, h2, hes, h3⟩ := upload_fresh_run req rest d
  have hsize : ((uploadedBytes (req :: rest)).length : Int) = req.size := by
    rw [h3] at hok
    by_contra hcon
    rw [if_pos hcon] at hok
    exact Except.noConfusion hok
  have hdisk : (upload (req :: rest) .eof (freshUpload d false)).2.disk
      = some (uploadedBytes (req :: rest)
          ++ (d.getD []).drop (uploadedBytes (req :: rest)).length) := by
    rw [h2, writeAt_zero]
  refine ⟨hdisk, h1, ?_, ?_⟩
  · rw [h1, hes, hsize]
  · intro hle
    rw [hdisk, List.drop_eq_nil_of_le hle, List.append_nil]

/-- C1 (witness): a two-byte upload into an absent destination leaves exactly
the uploaded bytes on disk. -/
theorem C1_upload_content_witness :
    (upload [⟨"f", [120, 121], 2⟩] .eof (freshUpload none false)).2.disk
      = some [120, 121] := by
  have h := C1_upload_content [⟨"f", [120, 121], 2⟩] none (by decide)
    (by decide) (by rfl)
  exact h.2.2.2 (by decide)

/-- C2: at end-of-stream the upload handler compares the running byte total
with the size declared in the first message: equal yields the success
acknowledgement sent by `SendAndClose`, unequal yields a size-mismatch error
carrying the declared (expected) and running (actual) byte counts. -/
theorem C2_upload_eof_verdict (req : FileUploadRequest) (rest : List FileUploadRequest)
    (d : Option (List Nat)) :
    (((uploadedBytes (req :: rest)).length : Int) = req.size →
      (upload (req :: rest) .eof (freshUpload d false)).1 = .ok uploadOkResponse)
    ∧ (((uploadedBytes (req :: rest)).length : Int) ≠ req.size →
      (upload (req :: rest) .eof (freshUpload d false)).1
        = .error (.sizeMismatch req.size ((uploadedBytes (req :: rest)).length : Int))) := by
  obtain ⟨-, -, -, h3⟩ := upload_fresh_run req rest d
  constructor
  · intro heq
    rw [h3, if_neg (not_not_intro heq)]
  · intro hne
    rw [h3, if_pos hne]

/-- C2 (witness): declaring 2 bytes but sending 1 fails with
`sizeMismatch 2 1`; declaring 1 byte and sending 1 succeeds. -/
theorem C2_upload_eof_verdict_witness :
    (upload [⟨"f", [120], 2⟩] .eof (freshUpload none false)).1
        = .error (.sizeMismatch 2 1)
    ∧ (upload [⟨"g", [120], 1⟩] .eof (freshUpload none false)).1
        = .ok uploadOkResponse := by
  constructor
  · exact (C2_upload_eof_verdict ⟨"f", [120], 2⟩ [] none).2 (by decide)
  · exact (C2_upload_eof_verdict ⟨"g", [120], 1⟩ [] none).1 (by decide)

/-- C3: at end-of-file the download handler compares the accumulated bytes
sent with the size obtained by `Stat` at open time: unequal fails the session
with a size-mismatch error carrying both counts; equal closes the stream
successfully, having sent exactly one message per chunk read and nothing more. -/
theorem C3_download_eof_verdict (fn : String) (statSize : Int)
    (reads : List (List Nat)) :
    (totalRead reads ≠ statSize →
      (download ⟨fn⟩ (some ⟨false, statSize, reads, .eof⟩) none).res
        = .error (.sizeMismatch statSize (totalRead reads)))
    ∧ (totalRead reads = statSize →
      (download ⟨fn⟩ (some ⟨false, statSize, reads, .eof⟩) none).res = .ok ()
      ∧ (download ⟨fn⟩ (some ⟨false, statSize, reads, .eof⟩) none).sent.length
          = reads.length) := by
  have hres : (download ⟨fn⟩ (some ⟨false, statSize, reads, .eof⟩) none).res
      = (downloadLoop fn statSize none reads .eof 0 0 []).1 := rfl
  have hsent : (download ⟨fn⟩ (some ⟨false, statSize, reads, .eof⟩) none).sent
      = (downloadLoop fn statSize none reads .eof 0 0 []).2.1 := rfl
  obtain ⟨hv, -⟩ := downloadLoop_verdict fn statSize reads 0 0 []
  rw [zero_add] at hv
  constructor
  · intro hne
    rw [hres, hv, if_pos hne]
  · intro heq
    refine ⟨?_, ?_⟩
    · rw [hres, hv, if_neg (not_not_intro heq)]
    · rw [hsent, downloadLoop_sent]
      simp

/-- C3 (witness): a download whose reads deliver 2 bytes against a stat size
of 3 fails with `sizeMismatch 3 2`; against a stat size of 2 it succeeds,
sending one message for its one chunk. -/
theorem C3_download_eof_verdict_witness :
    (download ⟨"f"⟩ (some ⟨false, 3, [[1, 2]], .eof⟩) none).res
        = .error (.sizeMismatch 3 2)
    ∧ (download ⟨"f"⟩ (some ⟨false, 2, [[1, 2]], .eof⟩) none).res = .ok ()
    ∧ (download ⟨"f"⟩ (some ⟨false, 2, [[1, 2]], .eof⟩) none).sent.length = 1 := by
  refine ⟨?_, ?_, ?_⟩
  · exact (C3_download_eof_verdict "f" 3 [[1, 2]]).1 (by decide)
  · exact ((C3_download_eof_verdict "f" 2 [[1, 2]]).2 (by decide)).1
  · exact ((C3_download_eof_verdict "f" 2 [[1, 2]]).2 (by decide)).2

/-- C4 (code divergence): the download handler's `defer f.Close()` releases
its handle on every exit path — for all fault injections (absent file, stat
failure, read error, send failure, size mismatch, success) the final state has
the handle closed — but the upload handler never closes the file it opens: the
session `{filename: "f", content: [0x78], size: 1}` followed by EOF completes
successfully with its handle still open. -/
theorem C4_handle_release_paths :
    ((upload [⟨"f", [120], 1⟩] .eof (freshUpload none false)).1 = .ok uploadOkResponse
      ∧ (upload [⟨"f", [120], 1⟩] .eof (freshUpload none false)).2.handleOpen = true)
    ∧ (∀ (req : FileDownloadRequest) (file : Option DlFile) (sendFailAt : Option Nat),
        (download req file sendFailAt).handleOpen = false) := by
  refine ⟨⟨rfl, rfl⟩, ?_⟩
  intro req file sendFailAt
  cases file with
  | none => rfl
  | some fl =>
      simp only [download]
      split
      · rfl
      · rfl

/-- C5: the destination file of an upload is opened exactly once, on the first
message, however many messages follow and however the stream ends, and the
declared size used for the final check is the first message's `size` field. -/
theorem C5_open_once_first_size (req : FileUploadRequest)
    (rest : List FileUploadRequest) (term : StreamTerm) (d : Option (List Nat)) :
    (upload (req :: rest) term (freshUpload d false)).2.opens = 1
    ∧ (upload (req :: rest) term (freshUpload d false)).2.expectedSize = req.size := by
  rw [upload_first_step]
  obtain ⟨h1, h2, -, -⟩ := upload_once_preserved rest term
    ⟨some (writeAt (d.getD []) 0 req.content), false, true,
      req.content.length, 1, true, (req.content.length : Int), req.size⟩ rfl rfl
  exact ⟨h1, h2⟩

/-- C6: every message a download session passes to `stream.Send` carries the
requested filename, the chunk bytes just read, and the stat-time total file
size, the same size value on every message of the stream. -/
theorem C6_download_chunk_messages (fn : String) (statSize : Int)
    (reads : List (List Nat)) (rterm : ReadTerm) :
    (download ⟨fn⟩ (some ⟨false, statSize, reads, rterm⟩) none).sent
      = reads.map (fun c => ⟨"", fn, c, statSize⟩) := by
  have h : (download ⟨fn⟩ (some ⟨false, statSize, reads, rterm⟩) none).sent
      = (downloadLoop fn statSize none reads rterm 0 0 []).2.1 := rfl
  rw [h, downloadLoop_sent]
  simp

/-- C9: an upload of a zero-byte file declared as size 0 succeeds with a
running total of 0 matching the declared size, and a download of a zero-byte
file (stat size 0, no chunks before EOF) succeeds with a byte total of 0. -/
theorem C9_zero_byte_transfers (fn : String) (d : Option (List Nat)) :
    ((upload [⟨fn, [], 0⟩] .eof (freshUpload d false)).1 = .ok uploadOkResponse
      ∧ (upload [⟨fn, [], 0⟩] .eof (freshUpload d false)).2.totalBytes = 0
      ∧ (upload [⟨fn, [], 0⟩] .eof (freshUpload d false)).2.expectedSize = 0)
    ∧ ((download ⟨fn⟩ (some ⟨false, 0, [], .eof⟩) none).res = .ok ()
      ∧ (download ⟨fn⟩ (some ⟨false, 0, [], .eof⟩) none).totalBytes = 0) := by
  exact ⟨⟨rfl, rfl, rfl⟩, rfl, rfl⟩

/-- C10: an upload stream that reaches end-of-stream before any message
returns the success acknowledgement with a running byte count of 0, leaving
the session state untouched: the open call never ran and the disk keeps
exactly what it held, so no file appears for an empty-stream upload. -/
theorem C10_empty_stream_upload (d : Option (List Nat)) (b : Bool) :
    upload [] .eof (freshUpload d b) = (.ok uploadOkResponse, freshUpload d b)
    ∧ (freshUpload d b).opens = 0
    ∧ (freshUpload d b).totalBytes = 0
    ∧ (freshUpload d b).disk = d := ⟨rfl, rfl, rfl, rfl⟩

/-- C7: with TLS enabled and the bind successful, the provisioner loads the
key pair from disk when both paths are configured — succeeding exactly when
both files hold valid material and aborting listener construction with a
certificate-load error when either is missing, unreadable or invalid — and
when both paths are absent it instead generates a self-signed configuration
entirely in memory: the outcome is independent of the disk, succeeds with the
freshly generated key pair, and a generation failure likewise aborts
construction. -/
theorem C7_certificate_provisioner (opt : ServerOption)
    (disk : String → CertFileState) (rnd : GenOutcome)
    (htls : opt.tls = true) :
    (∀ c k, opt.certFile ≠ "" → opt.keyFile ≠ "" →
        disk opt.certFile = .valid c → disk opt.keyFile = .valid k →
        newListener true opt disk rnd = .ok (.tlsWrapped ⟨.loaded c k⟩))
    ∧ (opt.certFile ≠ "" → opt.keyFile ≠ "" →
        ((∀ c, disk opt.certFile ≠ .valid c) ∨ (∀ k, disk opt.keyFile ≠ .valid k)) →
        newListener true opt disk rnd = .error .certificateLoad)
    ∧ (opt.certFile = "" → opt.keyFile = "" →
        (∀ disk2, newListener true opt disk rnd = newListener true opt disk2 rnd)
        ∧ (∀ kp, rnd = .ok kp →
            newListener true opt disk rnd = .ok (.tlsWrapped ⟨.selfSigned kp⟩))
        ∧ (rnd = .genError →
            newListener true opt disk rnd = .error .certificateGeneration)) := by
  refine ⟨?_, ?_, ?_⟩
  · intro c k hcf hkf hc hk
    simp only [newListener, htls, Bool.true_eq_false, if_false, hcf, hkf, or_self,
      genTLS, hc, hk]
  · intro hcf hkf hinval
    have hload : genTLS disk opt.certFile opt.keyFile = .error .certificateLoad := by
      unfold genTLS
      rcases hinval with h | h
      · cases hcert : disk opt.certFile with
        | valid c => exact absurd hcert (h c)
        | missing => cases disk opt.keyFile <;> rfl
        | unreadable => cases disk opt.keyFile <;> rfl
        | invalid => cases disk opt.keyFile <;> rfl
      · cases hkey : disk opt.keyFile with
        | valid k => exact absurd hkey (h k)
        | missing => cases disk opt.certFile <;> rfl
        | unreadable => cases disk opt.certFile <;> rfl
        | invalid => cases disk opt.certFile <;> rfl
    simp only [newListener, htls, Bool.true_eq_false, if_false, hcf, hkf, or_self,
      hload]
  · intro hcf hkf
    refine ⟨?_, ?_, ?_⟩
    · intro disk2
      simp only [newListener, htls, Bool.true_eq_false, if_false, hcf, hkf, or_self,
        if_true]
    · intro kp hk
      simp only [newListener, htls, Bool.true_eq_false, if_false, hcf, hkf, or_self,
        if_true, hk, genSelfSignedTLS]
    · intro hk
      simp only [newListener, htls, Bool.true_eq_false, if_false, hcf, hkf, or_self,
        if_true, hk, genSelfSignedTLS]

/-- C7 (witness): loading from a disk whose two configured paths hold valid
material yields the loaded pair, and with both paths unconfigured the
self-signed generation result is used. -/
theorem C7_certificate_provisioner_witness :
    newListener true ⟨true, "c", "k"⟩
        (fun p => if p = "c" then .valid 1 else if p = "k" then .valid 2 else .missing)
        (.ok 7)
      = .ok (.tlsWrapped ⟨.loaded 1 2⟩)
    ∧ newListener true ⟨true, "", ""⟩ (fun _ => .missing) (.ok 7)
      = .ok (.tlsWrapped ⟨.selfSigned 7⟩) := by
  constructor
  · exact (C7_certificate_provisioner ⟨true, "c", "k"⟩
      (fun p => if p = "c" then .valid 1 else if p = "k" then .valid 2 else .missing)
      (.ok 7) rfl).1 1 2 (by decide) (by decide) (by decide) (by decide)
  · exact (((C7_certificate_provisioner ⟨true, "", ""⟩ (fun _ => .missing)
      (.ok 7) rfl).2.2 rfl rfl).2.1) 7 rfl

end Grpcp
